import Mathlib

/-!
# mlx5 regex daemon: resource registration and shutdown

A shallow embedding of `src/mlx5_regex.c`.  Machine integers are natural
numbers reduced modulo `2 ^ 32` or `2 ^ 64` where the C code can wrap or
truncate.  Calls into the device library, the allocator and the kernel are
answered by an environment `Env`; every function returns the list of calls
it made, in program order, next to its C result.

Not recorded as calls: `syslog`, `sysconf`, `memset`, `signal`, the debug dump
`print_raw`, and the capability query, whose only effect on the code below is
the value of `caps.num_of_engines`.  Pointers are abstract: a per-engine
resource is identified by the `db_ctx` slot that owns it.  Reading
`mem_desc.mkey->id` through a `NULL` pointer has no result (`none`).
-/

namespace Mlx5Regex

/-! ## Alignment macros (instantiated at `typeof(val) = uint64_t`) -/

/-- Complement `~x` of a `uint64_t`. -/
def not64 (x : Nat) : Nat := 2 ^ 64 - 1 - x % 2 ^ 64

/-- `RTE_ALIGN_FLOOR(val, align)`: `val & ~(typeof(val))(align - 1)`, where
`align - 1` wraps in the 64-bit `size_t`. -/
def RTE_ALIGN_FLOOR (val align : Nat) : Nat :=
  (val % 2 ^ 64) &&& not64 ((align % 2 ^ 64 + (2 ^ 64 - 1)) % 2 ^ 64)

/-- `RTE_ALIGN_CEIL(val, align)`:
`RTE_ALIGN_FLOOR(val + ((typeof(val)) align - 1), align)`. -/
def RTE_ALIGN_CEIL (val align : Nat) : Nat :=
  RTE_ALIGN_FLOOR ((val % 2 ^ 64 + (align % 2 ^ 64 + (2 ^ 64 - 1)) % 2 ^ 64) % 2 ^ 64) align

/-- `RTE_ALIGN(val, align)` is `RTE_ALIGN_CEIL(val, align)`. -/
def RTE_ALIGN (val align : Nat) : Nat := RTE_ALIGN_CEIL val align

/-! ## Base-2 logarithm helpers -/

/-- Number of trailing zero bits of a non-zero word, scanning at most `fuel`
bits from the least significant one. -/
def ctz : Nat → Nat → Nat
  | 0, _ => 0
  | fuel + 1, v => if v % 2 = 1 then 0 else 1 + ctz fuel (v / 2)

/-- `rte_bsf32(v)`: `__builtin_ctz(v)`, which has no defined result at `0`. -/
def rte_bsf32 (v : Nat) : Option Nat :=
  if v % 2 ^ 32 = 0 then none else some (ctz 32 (v % 2 ^ 32))

/-- `rte_combine32ms1b(x)`: smear the most significant set bit to the right. -/
def rte_combine32ms1b (x : Nat) : Nat :=
  let x := x % 2 ^ 32
  let x := x ||| (x >>> 1)
  let x := x ||| (x >>> 2)
  let x := x ||| (x >>> 4)
  let x := x ||| (x >>> 8)
  let x := x ||| (x >>> 16)
  x

/-- `rte_align32pow2(x)`: `x--`, smear, `x + 1`, all in `uint32_t`. -/
def rte_align32pow2 (x : Nat) : Nat :=
  let x := (x % 2 ^ 32 + (2 ^ 32 - 1)) % 2 ^ 32
  let x := rte_combine32ms1b x
  (x + 1) % 2 ^ 32

/-- `rte_log2_u32(v)`. -/
def rte_log2_u32 (v : Nat) : Option Nat :=
  if v % 2 ^ 32 = 0 then some 0
  else rte_bsf32 (rte_align32pow2 (v % 2 ^ 32))

/-! ## The key descriptor built by `rxp_create_mkey` -/

/-- `struct mlx5_devx_mkey_attr`, the fields `rxp_create_mkey` initialises. -/
structure mlx5_devx_mkey_attr where
  addr : Nat
  size : Nat
  umem_id : Nat
  pd : Nat
  pg_access : Nat
  umr_en : Nat
  deriving DecidableEq

/-- The values `rxp_create_mkey` hands to `DEVX_SET` / `DEVX_SET64` for the
`create_mkey_in` command.  The field layout and the two header constants
(`opcode`, `access_mode_1_0`) live in headers outside the source tree and are
not represented.  `log_page_size` is `none` when `rte_log2_u32` has no defined
result. -/
structure create_mkey_in where
  log_page_size : Option Nat
  mkey_umem_id : Nat
  pg_access : Nat
  lw : Nat
  lr : Nat
  qpn : Nat
  pd : Nat
  mkey_7_0 : Nat
  umr_en : Nat
  translations_octword_size : Nat
  relaxed_ordering_write : Nat
  relaxed_ordering_read : Nat
  start_addr : Nat
  len : Nat
  deriving DecidableEq

/-- The compound literal assigned to `mkey_attr`: `.size = (uint32_t)size`,
`.umem_id = umem->umem_id`, `.pg_access = 1`, `.umr_en = 0`, `.pd = pdn`. -/
def mkey_attr_of (ptr size umem_id pdn : Nat) : mlx5_devx_mkey_attr :=
  { addr := ptr % 2 ^ 64
    size := size % 2 ^ 32
    umem_id := umem_id % 2 ^ 32
    pd := pdn % 2 ^ 32
    pg_access := 1
    umr_en := 0 }

/-- `translation_size = (RTE_ALIGN(mkey_attr.size, pgsize) * 8) / 16`, computed
in `uint64_t` and stored in a `uint32_t`. -/
def translation_size (attr : mlx5_devx_mkey_attr) (pgsize : Nat) : Nat :=
  ((RTE_ALIGN attr.size pgsize * 8) % 2 ^ 64 / 16) % 2 ^ 32

/-- The block of `DEVX_SET` statements of `rxp_create_mkey`. -/
def fill_create_mkey_in (attr : mlx5_devx_mkey_attr) (pgsize : Nat) : create_mkey_in :=
  { log_page_size := rte_log2_u32 (pgsize % 2 ^ 32)
    mkey_umem_id := attr.umem_id
    pg_access := attr.pg_access
    lw := 1
    lr := 1
    qpn := 0xffffff
    pd := attr.pd
    mkey_7_0 := attr.umem_id &&& 0xFF
    umr_en := attr.umr_en
    translations_octword_size := translation_size attr pgsize
    relaxed_ordering_write := 0
    relaxed_ordering_read := 0
    start_addr := attr.addr
    len := attr.size }

/-- The id stored after a successful create: `id = mkey_index` (an `int` read
from the 32-bit output field), then `id = (id << 8) | (umem_id & 0xFF)`.  The
result is the 32-bit pattern of the `int`. -/
def mkey_id (mkey_index : Nat) (attr : mlx5_devx_mkey_attr) : Nat :=
  (((mkey_index % 2 ^ 32) <<< 8) % 2 ^ 32) ||| (attr.umem_id &&& 0xFF)

/-! ## Data model -/

/-- `ENOMEM` of `errno.h`. -/
def ENOMEM : Int := 12

/-- `ENODEV` of `errno.h`. -/
def ENODEV : Int := 19

/-- `MAP_FAILED`, the pointer `(void *) -1`. -/
def MAP_FAILED : Nat := 2 ^ 64 - 1

/-- `struct mlx5_devx_obj`: the `id` is kept as the 32-bit pattern of the C
`int`; the `obj` handle is opaque and identified with the slot that owns it. -/
structure mlx5_devx_obj where
  id : Nat
  deriving DecidableEq

/-- `struct mlx5_regex_mkey`.  `umem` holds the `umem_id` behind the pointer,
`none` is `NULL`. -/
structure mlx5_regex_mkey where
  ptr : Nat
  umem : Option Nat
  mkey : Option mlx5_devx_obj
  deriving DecidableEq

/-- `struct mlx5_database_ctx`. -/
structure mlx5_database_ctx where
  umem_id : Nat
  offset : Nat
  mem_desc : mlx5_regex_mkey
  deriving DecidableEq

/-- `struct mlx5_regex_ctx`: `db_ctx` is the array allocated by
`mlx5_regex_ctx_init`, `num_of_engines` is `caps.num_of_engines`, `pd` tells
whether the protection domain pointer is non-`NULL`. -/
structure mlx5_regex_ctx where
  db_ctx : Nat → mlx5_database_ctx
  num_of_engines : Nat
  pd : Bool

/-- One call into the device library, the C library allocator or the kernel,
with the arguments the program passes and the result the environment gives.
The first argument of a per-engine call is the `db_ctx` slot it works on. -/
inductive Call where
  | alloc_pd (ok : Bool)
  | mmap (engine : Nat) (ret : Nat)
  | calloc (engine : Nat) (ok : Bool)
  | umem_reg (engine : Nat) (addr size access : Nat) (ret : Option Nat)
  | init_obj (engine : Nat) (ret : Int)
  | obj_create (engine : Nat) (cmd : create_mkey_in) (ret : Option Nat)
  | set_params (engine : Nat) (db_mkey db_mkey_va : Nat) (ret : Int)
  | disconnect (engine : Nat) (db_mkey db_mkey_va : Nat) (ret : Int)
  | obj_destroy (engine : Nat)
  | umem_dereg (engine : Nat)
  | free (engine : Nat)
  | munmap (engine : Nat) (addr : Nat) (ret : Int)
  deriving DecidableEq

/-- The library or system function a call goes to. -/
inductive Kind where
  | alloc_pd | mmap | calloc | umem_reg | init_obj | obj_create | set_params
  | disconnect | obj_destroy | umem_dereg | free | munmap
  deriving DecidableEq

/-- The function a call goes to. -/
def Call.kind : Call → Kind
  | .alloc_pd _ => .alloc_pd
  | .mmap _ _ => .mmap
  | .calloc _ _ => .calloc
  | .umem_reg _ _ _ _ _ => .umem_reg
  | .init_obj _ _ => .init_obj
  | .obj_create _ _ _ => .obj_create
  | .set_params _ _ _ _ => .set_params
  | .disconnect _ _ _ _ => .disconnect
  | .obj_destroy _ => .obj_destroy
  | .umem_dereg _ => .umem_dereg
  | .free _ => .free
  | .munmap _ _ _ => .munmap

/-- The engine a call belongs to (`none` for the protection domain). -/
def Call.engine : Call → Option Nat
  | .alloc_pd _ => none
  | .mmap e _ => some e
  | .calloc e _ => some e
  | .umem_reg e _ _ _ _ => some e
  | .init_obj e _ => some e
  | .obj_create e _ _ => some e
  | .set_params e _ _ _ => some e
  | .disconnect e _ _ _ => some e
  | .obj_destroy e => some e
  | .umem_dereg e => some e
  | .free e => some e
  | .munmap e _ _ => some e

/-- Whether a call gives a resource back (unmap, free, deregister, destroy). -/
def Call.is_release (c : Call) : Bool :=
  c.kind = .munmap || c.kind = .free || c.kind = .umem_dereg || c.kind = .obj_destroy

/-- Whether a call belongs to unbinding: the disconnect command or a release. -/
def Call.is_unbind (c : Call) : Bool :=
  c.kind = .disconnect || c.is_release

/-- Per-engine resources of one registration. -/
inductive Resource where
  | buffer (engine : Nat)
  | mkey_alloc (engine : Nat)
  | umem (engine : Nat)
  | mkey_obj (engine : Nat)
  deriving DecidableEq

/-- The resource a call hands to the program, when it succeeds. -/
def Call.acquires : Call → Option Resource
  | .mmap e ret => if ret = MAP_FAILED then none else some (.buffer e)
  | .calloc e ok => if ok then some (.mkey_alloc e) else none
  | .umem_reg e _ _ _ ret => if ret.isSome then some (.umem e) else none
  | .obj_create e _ ret => if ret.isSome then some (.mkey_obj e) else none
  | _ => none

/-- The resource a call gives back. -/
def Call.releases : Call → Option Resource
  | .munmap e _ _ => some (.buffer e)
  | .free e => some (.mkey_alloc e)
  | .umem_dereg e => some (.umem e)
  | .obj_destroy e => some (.mkey_obj e)
  | _ => none

/-- Resources acquired and not yet given back after a sequence of calls. -/
def held : List Call → List Resource → List Resource
  | [], acc => acc
  | c :: cs, acc =>
    match c.acquires, c.releases with
    | some r, _ => held cs (acc ++ [r])
    | none, some r => held cs (acc.erase r)
    | none, none => held cs acc

/-- Answers of the device, the kernel and the allocator.  Per-engine answers
are indexed by the `db_ctx` slot the call is made for. -/
structure Env where
  /-- Value of `ctx->caps.num_of_engines` (a `u8`) after `mlx5_regex_query_cap`. -/
  num_of_engines : Nat
  num_of_engines_u8 : num_of_engines < 256
  /-- Whether `ibv_alloc_pd` returns a non-`NULL` pointer. -/
  alloc_pd : Bool
  /-- Contents of the freshly `malloc`ed `db_ctx` array. -/
  malloc_db_ctx : Nat → mlx5_database_ctx
  /-- `sysconf(_SC_PAGESIZE)` converted to `size_t`. -/
  pagesize : Nat
  /-- Address returned by `mmap`; `MAP_FAILED` is `2 ^ 64 - 1`. -/
  mmap : Nat → Nat
  /-- Whether `calloc` returns a non-`NULL` pointer. -/
  calloc : Nat → Bool
  /-- The `umem_id` of the region returned by `mlx5dv_devx_umem_reg_ex`. -/
  umem_reg : Nat → Option Nat
  /-- Return value of `mlx5dv_init_obj`. -/
  init_obj : Nat → Int
  /-- The `pdn` reported by `mlx5dv_init_obj` when it succeeds. -/
  pdn : Nat → Nat
  /-- Contents of the local `pdn` of `rxp_create_mkey` before it is written. -/
  uninit_pdn : Nat → Nat
  /-- The `mkey_index` output of `mlx5dv_devx_obj_create`, `none` for `NULL`. -/
  obj_create : Nat → Option Nat
  /-- Return value of the bind `mlx5dv_devx_general_cmd`. -/
  set_params : Nat → Int
  /-- Return value of the disconnect `mlx5dv_devx_general_cmd`. -/
  disconnect : Nat → Int
  /-- Return value of `munmap`. -/
  munmap : Nat → Int

/-- Signals told apart by `handle_signal`. -/
inductive Signal where
  | SIGINT | SIGHUP | SIGCHLD | SIGTERM | other
  deriving DecidableEq

/-! ## Operations -/

/-- `regex_get_pdn(pd, &pdn)`: `pdn` is the current content of the output
variable, which is written only when `mlx5dv_init_obj` returns `0`. -/
def regex_get_pdn (env : Env) (engine : Nat) (pdn : Nat) : Int × Nat × List Call :=
  let ret := env.init_obj engine
  if ret ≠ 0 then (ret, pdn, [Call.init_obj engine ret])
  else (0, env.pdn engine, [Call.init_obj engine ret])

/-- `rxp_create_mkey(ctx, ptr, size, access, mkey)`, called for the slot
`engine`. -/
def rxp_create_mkey (env : Env) (engine : Nat) (ptr size access : Nat)
    (mkey : mlx5_regex_mkey) : Int × mlx5_regex_mkey × List Call :=
  let pgsize := env.pagesize % 2 ^ 64
  if pgsize = 2 ^ 64 - 1 then (-ENOMEM, mkey, [])
  else
    let c1 := [Call.calloc engine (env.calloc engine)]
    if env.calloc engine = false then (-ENOMEM, mkey, c1)
    else
      let umem := env.umem_reg engine
      let c2 := c1 ++ [Call.umem_reg engine ptr size access umem]
      let mkey := { mkey with umem := umem }
      match umem with
      | none => (-ENODEV, mkey, c2)
      | some umem_id =>
        let r := regex_get_pdn env engine (env.uninit_pdn engine)
        let c3 := c2 ++ r.2.2
        if r.1 < 0 then (-ENODEV, mkey, c3)
        else
          let mkey_attr := mkey_attr_of ptr size umem_id r.2.1
          let cmd := fill_create_mkey_in mkey_attr pgsize
          let obj := env.obj_create engine
          let c4 := c3 ++ [Call.obj_create engine cmd obj]
          match obj with
          | none => (-ENODEV, mkey, c4)
          | some mkey_index =>
            (0, { mkey with mkey := some { id := mkey_id mkey_index mkey_attr } }, c4)

/-- `rxp_destroy_mkey(mkey)` for the slot `engine`. -/
def rxp_destroy_mkey (engine : Nat) (mkey : mlx5_regex_mkey) : List Call :=
  (if mkey.mkey.isSome then [Call.obj_destroy engine] else []) ++
  (if mkey.umem.isSome then [Call.umem_dereg engine] else [])

/-- `mlx5_devx_regex_database_disconnect(ctx, engine, db_mkey, db_mkey_va)`. -/
def mlx5_devx_regex_database_disconnect (env : Env) (engine db_mkey db_mkey_va : Nat) :
    Int × List Call :=
  let err := env.disconnect engine
  let c := [Call.disconnect engine db_mkey db_mkey_va err]
  if err ≠ 0 then (err, c) else (0, c)

/-- `mlx5_regex_database_set(ctx, engine_id)`; `none` when
`mem_desc.mkey` is `NULL` and `mkey->id` cannot be read. -/
def mlx5_regex_database_set (env : Env) (ctx : mlx5_regex_ctx) (engine_id : Nat) :
    Option (Int × List Call) :=
  match (ctx.db_ctx engine_id).mem_desc.mkey with
  | none => none
  | some obj =>
    let err := env.set_params engine_id
    let c := [Call.set_params engine_id obj.id (ctx.db_ctx engine_id).mem_desc.ptr err]
    if err ≠ 0 then some (err, c) else some (0, c)

/-- Store into `ctx->db_ctx[engine_id].mem_desc`. -/
def set_mem_desc (ctx : mlx5_regex_ctx) (engine_id : Nat) (m : mlx5_regex_mkey) :
    mlx5_regex_ctx :=
  let slot := ctx.db_ctx engine_id
  { ctx with db_ctx := Function.update ctx.db_ctx engine_id { slot with mem_desc := m } }

/-- `register_database(ctx, engine_id)`: `db_size = 1 << 27`. -/
def register_database (env : Env) (ctx : mlx5_regex_ctx) (engine_id : Nat) :
    Int × mlx5_regex_ctx × List Call :=
  let db_size := 1 <<< 27
  let ptr := env.mmap engine_id
  let mem_desc := (ctx.db_ctx engine_id).mem_desc
  let ctx := set_mem_desc ctx engine_id { mem_desc with ptr := ptr }
  let c1 := [Call.mmap engine_id ptr]
  if ptr = MAP_FAILED then (-ENOMEM, ctx, c1)
  else
    let r := rxp_create_mkey env engine_id (ctx.db_ctx engine_id).mem_desc.ptr db_size 7
      (ctx.db_ctx engine_id).mem_desc
    let ctx := set_mem_desc ctx engine_id r.2.1
    if r.1 < 0 then (-ENOMEM, ctx, c1 ++ r.2.2)
    else (0, ctx, c1 ++ r.2.2)

/-- The `for` loop of `handle_signal` under `SIGTERM`, with `n` iterations left
from index `i`; `err` is the current value of the variable.  The disconnect
function takes the index as a `uint8_t`.  The result is the value of `err`
after the loop and the calls made; `none` when a `mem_desc.mkey` is `NULL` and
`mkey->id` cannot be read. -/
def sigterm_loop (env : Env) (ctx : mlx5_regex_ctx) : Nat → Nat → Int → Option (Int × List Call)
  | 0, _, err => some (err, [])
  | n + 1, i, _ =>
    match (ctx.db_ctx i).mem_desc.mkey with
    | none => none
    | some obj =>
      let d := mlx5_devx_regex_database_disconnect env (i % 256) obj.id
        (ctx.db_ctx i).mem_desc.ptr
      let c2 := rxp_destroy_mkey i (ctx.db_ctx i).mem_desc
      let c3 := [Call.free i]
      let err := env.munmap i
      let c4 := [Call.munmap i (ctx.db_ctx i).mem_desc.ptr err]
      match sigterm_loop env ctx n (i + 1) err with
      | none => none
      | some (e, cs) => some (e, d.2 ++ c2 ++ c3 ++ c4 ++ cs)

/-- `handle_signal(sig)` run on the context `ctx_ptr` points to.  The first
component is the argument of `exit` when the handler ends the process. -/
def handle_signal (env : Env) (ctx : mlx5_regex_ctx) (sig : Signal) :
    Option (Option Int × List Call) :=
  match sig with
  | .SIGINT => some (none, [])
  | .SIGHUP => some (none, [])
  | .SIGCHLD => some (none, [])
  | .SIGTERM =>
    match sigterm_loop env ctx ctx.num_of_engines 0 0 with
    | none => none
    | some (err, cs) => some (some err, cs)
  | .other => some (none, [])

/-- Status a parent observes for `exit(err)`: the low eight bits. -/
def exit_status (err : Int) : Nat := (err % 256).toNat

/-- The `for` loop of `mlx5_regex_ctx_init`, with `n` iterations left from
index `i`. -/
def ctx_init_loop (env : Env) : Nat → Nat → mlx5_regex_ctx →
    Option (Int × mlx5_regex_ctx × List Call)
  | 0, _, ctx => some (0, ctx, [])
  | n + 1, i, ctx =>
    let r := register_database env ctx i
    if r.1 ≠ 0 then some (r.1, r.2.1, r.2.2)
    else
      match mlx5_regex_database_set env r.2.1 i with
      | none => none
      | some (err, c2) =>
        if err ≠ 0 then some (err, r.2.1, r.2.2 ++ c2)
        else
          match ctx_init_loop env n (i + 1) r.2.1 with
          | none => none
          | some (e, ctx2, c3) => some (e, ctx2, r.2.2 ++ c2 ++ c3)

/-- `mlx5_regex_ctx_init(ibv_ctx, ctx)`. -/
def mlx5_regex_ctx_init (env : Env) (ctx : mlx5_regex_ctx) :
    Option (Int × mlx5_regex_ctx × List Call) :=
  let ctx := { ctx with pd := env.alloc_pd }
  if env.alloc_pd = false then some (-ENOMEM, ctx, [Call.alloc_pd false])
  else
    let ctx := { ctx with num_of_engines := env.num_of_engines, db_ctx := env.malloc_db_ctx }
    match ctx_init_loop env ctx.num_of_engines 0 ctx with
    | none => none
    | some (e, ctx2, cs) => some (e, ctx2, Call.alloc_pd true :: cs)

/-! ## Expected values, used to state the theorems -/

/-- Every call `register_database` makes for engine `j` succeeds. -/
def Env.reg_ok (env : Env) (j : Nat) : Prop :=
  env.pagesize % 2 ^ 64 ≠ 2 ^ 64 - 1 ∧ env.mmap j ≠ MAP_FAILED ∧ env.calloc j = true ∧
  (env.umem_reg j).isSome = true ∧ 0 ≤ env.init_obj j ∧ (env.obj_create j).isSome = true

instance (env : Env) (j : Nat) : Decidable (env.reg_ok j) := by
  unfold Env.reg_ok
  infer_instance

/-- Registration and the bind command of engine `j` both succeed. -/
def Env.engine_ok (env : Env) (j : Nat) : Prop :=
  env.reg_ok j ∧ env.set_params j = 0

instance (env : Env) (j : Nat) : Decidable (env.engine_ok j) := by
  unfold Env.engine_ok
  infer_instance

/-- Content of the local `pdn` after `regex_get_pdn` for engine `j`. -/
def Env.pdn_after (env : Env) (j : Nat) : Nat :=
  if env.init_obj j ≠ 0 then env.uninit_pdn j else env.pdn j

/-- The `mkey_attr` built for engine `j` once its region is registered. -/
def Env.attr (env : Env) (j : Nat) : mlx5_devx_mkey_attr :=
  mkey_attr_of (env.mmap j) (1 <<< 27) ((env.umem_reg j).getD 0) (env.pdn_after j)

/-- The create-object command submitted for engine `j`. -/
def Env.cmd (env : Env) (j : Nat) : create_mkey_in :=
  fill_create_mkey_in (env.attr j) (env.pagesize % 2 ^ 64)

/-- The memory-key id stored for engine `j` after a successful create. -/
def Env.id (env : Env) (j : Nat) : Nat :=
  mkey_id ((env.obj_create j).getD 0) (env.attr j)

/-- The `mem_desc` of engine `j` after a successful `register_database`. -/
def Env.bound_desc (env : Env) (j : Nat) : mlx5_regex_mkey :=
  { ptr := env.mmap j, umem := env.umem_reg j, mkey := some { id := env.id j } }

/-- The calls of a successful `register_database` for engine `j`. -/
def reg_calls (env : Env) (j : Nat) : List Call :=
  [Call.mmap j (env.mmap j), Call.calloc j true,
   Call.umem_reg j (env.mmap j) (1 <<< 27) 7 (env.umem_reg j),
   Call.init_obj j (env.init_obj j),
   Call.obj_create j (env.cmd j) (env.obj_create j)]

/-- The calls that create and bind the database of engine `j`. -/
def bind_calls (env : Env) (j : Nat) : List Call :=
  reg_calls env j ++ [Call.set_params j (env.id j) (env.mmap j) (env.set_params j)]

/-- The calls that unbind and release the database of engine `j`. -/
def unbind_calls (env : Env) (j : Nat) : List Call :=
  [Call.disconnect j (env.id j) (env.mmap j) (env.disconnect j), Call.obj_destroy j,
   Call.umem_dereg j, Call.free j, Call.munmap j (env.mmap j) (env.munmap j)]

/-- Engine ids handed to the disconnect command, in call order. -/
def disconnect_order : List Call → List Nat
  | [] => []
  | Call.disconnect e _ _ _ :: cs => e :: disconnect_order cs
  | _ :: cs => disconnect_order cs

/-- The calls made for engine `i`, in call order, by the function they go to. -/
def engine_trace (i : Nat) (calls : List Call) : List Kind :=
  (calls.filter (fun c => decide (c.engine = some i))).map Call.kind

/-- Number of pages of size `pgsize` needed to cover `size` bytes:
`ceil(size / pgsize)`. -/
def pages (size pgsize : Nat) : Nat := (size + pgsize - 1) / pgsize

/-! ## Concrete environments -/

/-- A `db_ctx` slot with every pointer `NULL`. -/
def slot_zero : mlx5_database_ctx :=
  { umem_id := 0, offset := 0, mem_desc := { ptr := 0, umem := none, mkey := none } }

/-- A context before `mlx5_regex_ctx_init`. -/
def ctx_zero : mlx5_regex_ctx :=
  { db_ctx := fun _ => slot_zero, num_of_engines := 0, pd := false }

/-- A device with `n` engines, 4 KiB pages and distinct buffers, region ids and
key indices per engine; `mmap_fails`, `umem_fails`, `disc` and `mun` choose the
failures. -/
def env_with (n : Nat) (hn : n < 256) (mmap_fails umem_fails : Nat → Bool)
    (disc mun : Nat → Int) : Env :=
  { num_of_engines := n
    num_of_engines_u8 := hn
    alloc_pd := true
    malloc_db_ctx := fun _ => slot_zero
    pagesize := 4096
    mmap := fun i => if mmap_fails i then MAP_FAILED else 0x200000 * (i + 1)
    calloc := fun _ => true
    umem_reg := fun i => if umem_fails i then none else some (0x310 + i)
    init_obj := fun _ => 0
    pdn := fun _ => 7
    uninit_pdn := fun _ => 0
    obj_create := fun i => some (0x100 + i)
    set_params := fun _ => 0
    disconnect := disc
    munmap := mun }

/-- Two engines; on engine 0 both the disconnect command and `munmap` fail. -/
def env_two : Env :=
  env_with 2 (by decide) (fun _ => false) (fun _ => false)
    (fun i => if i = 0 then 5 else 0) (fun i => if i = 0 then -1 else 0)

/-- One engine whose disconnect command fails while `munmap` succeeds. -/
def env_disconnect_fails : Env :=
  env_with 1 (by decide) (fun _ => false) (fun _ => false) (fun _ => 5) (fun _ => 0)

/-- One engine whose region registration fails. -/
def env_umem_fails : Env :=
  env_with 1 (by decide) (fun _ => false) (fun _ => true) (fun _ => 0) (fun _ => 0)

/-- The context left by `mlx5_regex_ctx_init`. -/
def started (env : Env) (ctx : mlx5_regex_ctx) : mlx5_regex_ctx :=
  match mlx5_regex_ctx_init env ctx with
  | some r => r.2.1
  | none => ctx

/-- The calls made by `mlx5_regex_ctx_init`. -/
def start_calls (env : Env) (ctx : mlx5_regex_ctx) : List Call :=
  match mlx5_regex_ctx_init env ctx with
  | some r => r.2.2
  | none => []

/-! ## Numeric lemmas -/

theorem RTE_ALIGN_FLOOR_pow2 (x k : Nat) (hx : x < 2 ^ 64) (hk : k ≤ 63) :
    RTE_ALIGN_FLOOR x (2 ^ k) = x / 2 ^ k * 2 ^ k := by
  have hk64 : (2:Nat) ^ k < 2 ^ 64 := Nat.pow_lt_pow_right (by norm_num) (by omega)
  have hpos : 0 < (2:Nat) ^ k := Nat.two_pow_pos k
  have h1 : (2 ^ k % 2 ^ 64 + (2 ^ 64 - 1)) % 2 ^ 64 = 2 ^ k - 1 := by
    rw [Nat.mod_eq_of_lt hk64]
    omega
  unfold RTE_ALIGN_FLOOR not64
  rw [h1, Nat.mod_eq_of_lt hx, Nat.mod_eq_of_lt (by omega : 2 ^ k - 1 < 2 ^ 64)]
  have h2 : 2 ^ 64 - 1 - (2 ^ k - 1) = 2 ^ 64 - ((2 ^ k - 1) + 1) := by omega
  rw [h2]
  apply Nat.eq_of_testBit_eq
  intro i
  rw [Nat.testBit_and, Nat.testBit_two_pow_sub_succ (by omega : 2 ^ k - 1 < 2 ^ 64),
    Nat.testBit_two_pow_sub_one, Nat.mul_comm, Nat.testBit_mul_pow_two]
  by_cases hik : k ≤ i
  · have hx1 : (x / 2 ^ k).testBit (i - k) = x.testBit i := by
      rw [← Nat.shiftRight_eq_div_pow, Nat.testBit_shiftRight,
        show k + (i - k) = i by omega]
    have hnk : ¬ i < k := by omega
    rw [hx1, decide_eq_true (show i ≥ k from hik), decide_eq_false hnk]
    by_cases hi : i < 64
    · rw [decide_eq_true hi]
      cases x.testBit i <;> rfl
    · have hxi : x.testBit i = false := by
        apply Nat.testBit_lt_two_pow
        exact lt_of_lt_of_le hx (Nat.pow_le_pow_right (by norm_num) (by omega))
      rw [hxi]
      rfl
  · have hlt : i < k := by omega
    have hnk : ¬ i ≥ k := by omega
    rw [decide_eq_true hlt, decide_eq_false hnk]
    cases x.testBit i <;> cases decide (i < 64) <;> rfl

theorem RTE_ALIGN_pow2 (x k : Nat) (hx : x < 2 ^ 32) (hk : k ≤ 32) :
    RTE_ALIGN x (2 ^ k) = (x + 2 ^ k - 1) / 2 ^ k * 2 ^ k := by
  have hk32 : (2:Nat) ^ k ≤ 2 ^ 32 := Nat.pow_le_pow_right (by norm_num) hk
  have hpos : 0 < (2:Nat) ^ k := Nat.two_pow_pos k
  have h1 : (2 ^ k % 2 ^ 64 + (2 ^ 64 - 1)) % 2 ^ 64 = 2 ^ k - 1 := by
    rw [Nat.mod_eq_of_lt (by omega : 2 ^ k < 2 ^ 64)]
    omega
  have h2 : (x % 2 ^ 64 + (2 ^ k - 1)) % 2 ^ 64 = x + 2 ^ k - 1 := by
    rw [Nat.mod_eq_of_lt (by omega : x < 2 ^ 64),
      Nat.mod_eq_of_lt (by omega : x + (2 ^ k - 1) < 2 ^ 64)]
    omega
  unfold RTE_ALIGN RTE_ALIGN_CEIL
  rw [h1, h2]
  exact RTE_ALIGN_FLOOR_pow2 _ k (by omega) (by omega)

theorem translation_size_pow2 (attr : mlx5_devx_mkey_attr) (k : Nat)
    (hs : attr.size < 2 ^ 32) (hk : k ≤ 32) :
    translation_size attr (2 ^ k) = (attr.size + 2 ^ k - 1) / 2 ^ k * 2 ^ k * 8 / 16 := by
  have hk32 : (2:Nat) ^ k ≤ 2 ^ 32 := Nat.pow_le_pow_right (by norm_num) hk
  have hle : (attr.size + 2 ^ k - 1) / 2 ^ k * 2 ^ k ≤ attr.size + 2 ^ k - 1 :=
    Nat.div_mul_le_self _ _
  unfold translation_size
  rw [RTE_ALIGN_pow2 _ k hs hk]
  generalize (attr.size + 2 ^ k - 1) / 2 ^ k * 2 ^ k = a at hle ⊢
  omega

theorem ctz_two_pow (fuel k : Nat) (h : k < fuel) : ctz fuel (2 ^ k) = k := by
  induction fuel generalizing k with
  | zero => omega
  | succ fuel ih =>
    cases k with
    | zero => simp [ctz]
    | succ k =>
      have h0 : 2 ^ (k + 1) % 2 = 0 := by rw [Nat.pow_succ]; omega
      have h1 : 2 ^ (k + 1) / 2 = 2 ^ k := by rw [Nat.pow_succ]; omega
      simp only [ctz, h0, h1]
      rw [ih k (by omega)]
      simp
      omega

theorem smear_step (x y n m : Nat) (hm : m = 2 * n)
    (h : ∀ i, y.testBit i = true ↔ ∃ j, j < n ∧ x.testBit (i + j) = true) (i : Nat) :
    (y ||| (y >>> n)).testBit i = true ↔ ∃ j, j < m ∧ x.testBit (i + j) = true := by
  rw [Nat.testBit_or, Nat.testBit_shiftRight, Bool.or_eq_true, h i, h (n + i)]
  constructor
  · rintro (⟨j, hj, hb⟩ | ⟨j, hj, hb⟩)
    · exact ⟨j, by omega, hb⟩
    · exact ⟨n + j, by omega, by rwa [show i + (n + j) = n + i + j by omega]⟩
  · rintro ⟨j, hj, hb⟩
    by_cases hjn : j < n
    · exact Or.inl ⟨j, hjn, hb⟩
    · exact Or.inr ⟨j - n, by omega, by rwa [show n + i + (j - n) = i + j by omega]⟩

theorem rte_combine32ms1b_testBit (x : Nat) (hx : x < 2 ^ 32) (i : Nat) :
    (rte_combine32ms1b x).testBit i = true ↔ ∃ j, j < 32 ∧ x.testBit (i + j) = true := by
  have base : ∀ i, x.testBit i = true ↔ ∃ j, j < 1 ∧ x.testBit (i + j) = true := by
    intro i
    constructor
    · intro h
      exact ⟨0, by omega, h⟩
    · rintro ⟨j, hj, hb⟩
      have : j = 0 := by omega
      subst this
      exact hb
  unfold rte_combine32ms1b
  simp only [Nat.mod_eq_of_lt hx]
  exact smear_step x _ 16 32 rfl (smear_step x _ 8 16 rfl (smear_step x _ 4 8 rfl
    (smear_step x _ 2 4 rfl (smear_step x x 1 2 rfl base)))) i

theorem rte_combine32ms1b_eq (x r : Nat) (hr : r ≤ 32) (hx : x < 2 ^ r)
    (hlow : r = 0 ∨ 2 ^ (r - 1) ≤ x) : rte_combine32ms1b x = 2 ^ r - 1 := by
  have hx32 : x < 2 ^ 32 := lt_of_lt_of_le hx (Nat.pow_le_pow_right (by norm_num) hr)
  apply Nat.eq_of_testBit_eq
  intro i
  rw [Nat.testBit_two_pow_sub_one]
  by_cases hi : i < r
  · rw [decide_eq_true hi, rte_combine32ms1b_testBit x hx32]
    have hge : 2 ^ (r - 1) ≤ x := by
      rcases hlow with h | h
      · omega
      · exact h
    obtain ⟨m, hm, hb⟩ := Nat.ge_two_pow_implies_high_bit_true hge
    have hmr : m < r := by
      by_contra hcon
      have : x.testBit m = false := by
        apply Nat.testBit_lt_two_pow
        exact lt_of_lt_of_le hx (Nat.pow_le_pow_right (by norm_num) (by omega))
      rw [this] at hb
      exact Bool.noConfusion hb
    exact ⟨m - i, by omega, by rwa [show i + (m - i) = m by omega]⟩
  · rw [decide_eq_false hi]
    cases hc : (rte_combine32ms1b x).testBit i with
    | false => rfl
    | true =>
      obtain ⟨j, _, hb⟩ := (rte_combine32ms1b_testBit x hx32 i).1 hc
      have : x.testBit (i + j) = false := by
        apply Nat.testBit_lt_two_pow
        exact lt_of_lt_of_le hx (Nat.pow_le_pow_right (by norm_num) (by omega))
      rw [this] at hb
      exact Bool.noConfusion hb

theorem rte_log2_u32_eq_size (v : Nat) (h1 : 1 ≤ v) (h2 : v ≤ 2 ^ 31) :
    rte_log2_u32 v = some (Nat.size (v - 1)) := by
  have hv32 : v < 2 ^ 32 := by omega
  have hr : Nat.size (v - 1) ≤ 31 := Nat.size_le.2 (by omega)
  have hlt : v - 1 < 2 ^ Nat.size (v - 1) := Nat.lt_size_self _
  have hlow : Nat.size (v - 1) = 0 ∨ 2 ^ (Nat.size (v - 1) - 1) ≤ v - 1 := by
    by_cases h0 : Nat.size (v - 1) = 0
    · exact Or.inl h0
    · exact Or.inr (Nat.lt_size.1 (by omega))
  have hpow : (2:Nat) ^ Nat.size (v - 1) ≤ 2 ^ 31 := Nat.pow_le_pow_right (by norm_num) hr
  have hpos : 0 < (2:Nat) ^ Nat.size (v - 1) := Nat.two_pow_pos _
  have hdec : (v % 2 ^ 32 + (2 ^ 32 - 1)) % 2 ^ 32 = v - 1 := by
    rw [Nat.mod_eq_of_lt hv32]
    omega
  have halign : rte_align32pow2 v = 2 ^ Nat.size (v - 1) := by
    unfold rte_align32pow2
    simp only [hdec]
    rw [rte_combine32ms1b_eq (v - 1) _ (by omega) hlt hlow]
    omega
  unfold rte_log2_u32
  rw [Nat.mod_eq_of_lt hv32, if_neg (by omega), halign]
  unfold rte_bsf32
  rw [Nat.mod_eq_of_lt (by omega), if_neg (by omega), ctz_two_pow 32 _ (by omega)]

/-! ## Registration -/

theorem rxp_create_mkey_ok (env : Env) (j ptr size access : Nat) (m : mlx5_regex_mkey)
    (hp : env.pagesize % 2 ^ 64 ≠ 2 ^ 64 - 1) (hc : env.calloc j = true)
    (hu : (env.umem_reg j).isSome = true) (hi : 0 ≤ env.init_obj j)
    (ho : (env.obj_create j).isSome = true) :
    rxp_create_mkey env j ptr size access m =
      (0, { ptr := m.ptr, umem := env.umem_reg j,
            mkey := some (mlx5_devx_obj.mk (mkey_id ((env.obj_create j).getD 0)
              (mkey_attr_of ptr size ((env.umem_reg j).getD 0) (env.pdn_after j)))) },
       [Call.calloc j true, Call.umem_reg j ptr size access (env.umem_reg j),
        Call.init_obj j (env.init_obj j),
        Call.obj_create j (fill_create_mkey_in
          (mkey_attr_of ptr size ((env.umem_reg j).getD 0) (env.pdn_after j))
          (env.pagesize % 2 ^ 64)) (env.obj_create j)]) := by
  obtain ⟨u, hu⟩ := Option.isSome_iff_exists.1 hu
  obtain ⟨o, ho⟩ := Option.isSome_iff_exists.1 ho
  have hi2 : ¬ env.init_obj j < 0 := by omega
  have hp : env.pagesize % 18446744073709551616 ≠ 18446744073709551615 := by simpa using hp
  by_cases h0 : env.init_obj j = 0
  · simp [rxp_create_mkey, regex_get_pdn, Env.pdn_after, hp, hc, hu, ho, h0]
  · simp [rxp_create_mkey, regex_get_pdn, Env.pdn_after, hp, hc, hu, ho, h0, hi2]

theorem rxp_create_mkey_ret (env : Env) (j ptr size access : Nat) (m : mlx5_regex_mkey) :
    ((rxp_create_mkey env j ptr size access m).1 = 0 ∧
      env.pagesize % 2 ^ 64 ≠ 2 ^ 64 - 1 ∧ env.calloc j = true ∧
      (env.umem_reg j).isSome = true ∧ 0 ≤ env.init_obj j ∧
      (env.obj_create j).isSome = true) ∨
    (rxp_create_mkey env j ptr size access m).1 < 0 := by
  by_cases hp : env.pagesize % 2 ^ 64 = 2 ^ 64 - 1
  · right
    have hp : env.pagesize % 18446744073709551616 = 18446744073709551615 := by simpa using hp
    simp [rxp_create_mkey, hp, ENOMEM]
  have hq : env.pagesize % 18446744073709551616 ≠ 18446744073709551615 := by simpa using hp
  by_cases hc : env.calloc j = false
  · right; simp [rxp_create_mkey, hq, hc, ENOMEM]
  cases hu : env.umem_reg j with
  | none => right; simp [rxp_create_mkey, hq, hc, hu, ENODEV]
  | some u =>
    by_cases hi : env.init_obj j < 0
    · right
      have h0 : env.init_obj j ≠ 0 := by omega
      simp [rxp_create_mkey, regex_get_pdn, hq, hc, hu, hi, h0, ENODEV]
    cases ho : env.obj_create j with
    | none =>
      right
      by_cases h0 : env.init_obj j = 0
      · simp [rxp_create_mkey, regex_get_pdn, hq, hc, hu, h0, ho, ENODEV]
      · simp [rxp_create_mkey, regex_get_pdn, hq, hc, hu, hi, h0, ho, ENODEV]
    | some o =>
      left
      have hc2 : env.calloc j = true := by simpa using hc
      refine ⟨?_, hp, hc2, by simp, by omega, by simp⟩
      rw [rxp_create_mkey_ok env j ptr size access m hp hc2 (by simp [hu]) (by omega)
        (by simp [ho])]

theorem rxp_create_mkey_calls (env : Env) (j ptr size access : Nat) (m : mlx5_regex_mkey)
    (c : Call) (hc : c ∈ (rxp_create_mkey env j ptr size access m).2.2) :
    c.engine = some j ∧ c.is_unbind = false := by
  unfold rxp_create_mkey regex_get_pdn at hc
  simp only [] at hc
  split_ifs at hc <;> (try split at hc) <;> (try split at hc) <;>
    simp at hc <;> (try rcases hc with h | h | h | h) <;>
    subst_vars <;> simp [Call.engine, Call.is_unbind, Call.is_release, Call.kind]

theorem register_database_calls (env : Env) (ctx : mlx5_regex_ctx) (j : Nat) (c : Call)
    (hc : c ∈ (register_database env ctx j).2.2) :
    c.engine = some j ∧ c.is_unbind = false := by
  unfold register_database at hc
  simp only [] at hc
  split_ifs at hc
  · simp at hc
    subst hc
    simp [Call.engine, Call.is_unbind, Call.is_release, Call.kind]
  · rcases List.mem_append.1 hc with h | h
    · simp at h
      subst h
      simp [Call.engine, Call.is_unbind, Call.is_release, Call.kind]
    · exact rxp_create_mkey_calls _ _ _ _ _ _ _ h
  · rcases List.mem_append.1 hc with h | h
    · simp at h
      subst h
      simp [Call.engine, Call.is_unbind, Call.is_release, Call.kind]
    · exact rxp_create_mkey_calls _ _ _ _ _ _ _ h

theorem register_database_mmap_mem (env : Env) (ctx : mlx5_regex_ctx) (j : Nat) :
    Call.mmap j (env.mmap j) ∈ (register_database env ctx j).2.2 := by
  unfold register_database
  simp only []
  split_ifs <;> simp

theorem set_mem_desc_same (ctx : mlx5_regex_ctx) (j : Nat) (m : mlx5_regex_mkey) :
    ((set_mem_desc ctx j m).db_ctx j).mem_desc = m := by
  simp [set_mem_desc]

theorem set_mem_desc_other (ctx : mlx5_regex_ctx) (j k : Nat) (m : mlx5_regex_mkey)
    (h : k ≠ j) : (set_mem_desc ctx j m).db_ctx k = ctx.db_ctx k := by
  simp [set_mem_desc, Function.update, h]

theorem register_database_ok (env : Env) (ctx : mlx5_regex_ctx) (j : Nat)
    (h : env.reg_ok j) :
    (register_database env ctx j).1 = 0 ∧
    (register_database env ctx j).2.2 = reg_calls env j ∧
    ((register_database env ctx j).2.1.db_ctx j).mem_desc = env.bound_desc j ∧
    (∀ k, k ≠ j → (register_database env ctx j).2.1.db_ctx k = ctx.db_ctx k) ∧
    (register_database env ctx j).2.1.num_of_engines = ctx.num_of_engines := by
  obtain ⟨hp, hm, hc, hu, hi, ho⟩ := h
  unfold register_database
  simp only [if_neg hm, set_mem_desc_same]
  rw [rxp_create_mkey_ok env j _ _ _ _ hp hc hu hi ho]
  simp only [lt_self_iff_false, if_false, set_mem_desc_same]
  refine ⟨trivial, ?_, ?_, ?_, ?_⟩
  · simp [reg_calls, Env.cmd, Env.attr]
  · simp [Env.bound_desc, Env.id, Env.attr]
  · intro k hk
    rw [set_mem_desc_other _ _ _ _ hk, set_mem_desc_other _ _ _ _ hk]
  · rfl

theorem register_database_ret (env : Env) (ctx : mlx5_regex_ctx) (j : Nat) :
    ((register_database env ctx j).1 = 0 ∧ env.reg_ok j) ∨
    (register_database env ctx j).1 = -ENOMEM := by
  by_cases hm : env.mmap j = MAP_FAILED
  · right
    simp [register_database, hm]
  · rcases rxp_create_mkey_ret env j (env.mmap j) (1 <<< 27) 7
        { (ctx.db_ctx j).mem_desc with ptr := env.mmap j } with ⟨h0, hp, hc, hu, hi, ho⟩ | hneg
    · left
      exact ⟨(register_database_ok env ctx j ⟨hp, hm, hc, hu, hi, ho⟩).1,
        hp, hm, hc, hu, hi, ho⟩
    · right
      unfold register_database
      simp only [if_neg hm, set_mem_desc_same]
      rw [if_pos hneg]

theorem mlx5_regex_database_set_bound (env : Env) (ctx : mlx5_regex_ctx) (j : Nat)
    (h : (ctx.db_ctx j).mem_desc = env.bound_desc j) :
    mlx5_regex_database_set env ctx j =
      some (env.set_params j,
        [Call.set_params j (env.id j) (env.mmap j) (env.set_params j)]) := by
  unfold mlx5_regex_database_set
  rw [h]
  by_cases h0 : env.set_params j = 0
  · simp [Env.bound_desc, h0]
  · simp [Env.bound_desc, h0]

/-! ## The start-up loop -/

theorem ctx_init_loop_ok (env : Env) (n i : Nat) (ctx : mlx5_regex_ctx)
    (h : ∀ j, i ≤ j → j < i + n → env.engine_ok j) :
    ∃ ctx2, ctx_init_loop env n i ctx
        = some (0, ctx2, (List.range' i n).flatMap (bind_calls env)) ∧
      (∀ j, i ≤ j → j < i + n → (ctx2.db_ctx j).mem_desc = env.bound_desc j) ∧
      (∀ j, j < i → ctx2.db_ctx j = ctx.db_ctx j) ∧
      ctx2.num_of_engines = ctx.num_of_engines := by
  induction n generalizing i ctx with
  | zero =>
    refine ⟨ctx, by simp [ctx_init_loop], ?_, fun _ _ => rfl, rfl⟩
    intro j h1 h2
    omega
  | succ n ih =>
    have hi := h i (Nat.le_refl i) (by omega)
    obtain ⟨h1, h2, h3, h4, h5⟩ := register_database_ok env ctx i hi.1
    have hset := mlx5_regex_database_set_bound env _ i h3
    obtain ⟨ctx2, e, p1, p2, p3⟩ := ih (i + 1) (register_database env ctx i).2.1
      (fun j a b => h j (by omega) (by omega))
    refine ⟨ctx2, ?_, ?_, ?_, ?_⟩
    · rw [ctx_init_loop]
      simp only [h1, hset, hi.2, e, h2, ne_eq, not_true_eq_false, if_false]
      simp [List.range'_succ, bind_calls, hi.2]
    · intro j hj1 hj2
      by_cases hji : j = i
      · subst hji
        rw [p2 j (by omega), h3]
      · exact p1 j (by omega) (by omega)
    · intro j hj
      rw [p2 j (by omega), h4 j (by omega)]
    · rw [p3, h5]

theorem ctx_init_loop_fail (env : Env) (n i : Nat) (ctx : mlx5_regex_ctx) (k : Nat)
    (hik : i ≤ k) (hkn : k < i + n) (hok : ∀ j, i ≤ j → j < k → env.engine_ok j)
    (hfail : ¬ env.engine_ok k) :
    ∃ err ctx2 t, ctx_init_loop env n i ctx
        = some (err, ctx2, (List.range' i (k - i)).flatMap (bind_calls env) ++ t) ∧
      err ≠ 0 ∧ (∀ c ∈ t, c.engine = some k ∧ c.is_unbind = false) := by
  induction n generalizing i ctx with
  | zero => omega
  | succ n ih =>
    by_cases hki : k = i
    · subst hki
      by_cases hreg : env.reg_ok k
      · obtain ⟨h1, h2, h3, _, _⟩ := register_database_ok env ctx k hreg
        have hset := mlx5_regex_database_set_bound env _ k h3
        have hsp : env.set_params k ≠ 0 := fun h0 => hfail ⟨hreg, h0⟩
        refine ⟨env.set_params k, (register_database env ctx k).2.1,
          bind_calls env k, ?_, hsp, ?_⟩
        · rw [ctx_init_loop]
          simp only [h1, hset, hsp, h2, ne_eq, not_true_eq_false, if_false]
          simp [bind_calls]
        · intro c hc
          simp [bind_calls, reg_calls] at hc
          rcases hc with h | h | h | h | h | h <;> subst h <;>
            simp [Call.engine, Call.is_unbind, Call.is_release, Call.kind]
      · have hret : (register_database env ctx k).1 = -ENOMEM := by
          rcases register_database_ret env ctx k with ⟨_, h⟩ | h
          · exact absurd h hreg
          · exact h
        have hne : (register_database env ctx k).1 ≠ 0 := by
          rw [hret]
          decide
        refine ⟨(register_database env ctx k).1, (register_database env ctx k).2.1,
          (register_database env ctx k).2.2, ?_, hne, ?_⟩
        · rw [ctx_init_loop]
          simp [hne]
        · exact fun c hc => register_database_calls env ctx k c hc
    · have hi := hok i (Nat.le_refl i) (by omega)
      obtain ⟨h1, h2, h3, _, _⟩ := register_database_ok env ctx i hi.1
      have hset := mlx5_regex_database_set_bound env _ i h3
      obtain ⟨err, ctx2, t, e, p1, p2⟩ := ih (i + 1) (register_database env ctx i).2.1
        (by omega) (by omega) (fun j a b => hok j (by omega) b)
      refine ⟨err, ctx2, t, ?_, p1, p2⟩
      rw [ctx_init_loop]
      simp only [h1, hset, hi.2, e, h2, ne_eq, not_true_eq_false, if_false]
      rw [show k - i = (k - (i + 1)) + 1 by omega, List.range'_succ]
      simp [bind_calls, hi.2]

theorem ctx_init_loop_zero (env : Env) (n i : Nat) (ctx ctx2 : mlx5_regex_ctx)
    (t : List Call) (h : ctx_init_loop env n i ctx = some (0, ctx2, t)) :
    ∀ j, i ≤ j → j < i + n → env.engine_ok j := by
  by_contra hcon
  have hex : ∃ k, i ≤ k ∧ k < i + n ∧ ¬ env.engine_ok k := by
    push_neg at hcon
    exact hcon
  classical
  have hk := Nat.find_spec hex
  have hmin : ∀ j, i ≤ j → j < Nat.find hex → env.engine_ok j := by
    intro j h1 h2
    by_contra hj
    exact Nat.find_min hex h2 ⟨h1, by omega, hj⟩
  obtain ⟨err, c2, t2, e, hne, _⟩ :=
    ctx_init_loop_fail env n i ctx (Nat.find hex) hk.1 hk.2.1 hmin hk.2.2
  rw [e] at h
  simp only [Option.some.injEq, Prod.mk.injEq] at h
  exact hne h.1

/-! ## The shutdown loop -/

theorem sigterm_loop_bound (env : Env) (ctx : mlx5_regex_ctx) (n i : Nat) (err : Int)
    (h : ∀ j, i ≤ j → j < i + n →
      (ctx.db_ctx j).mem_desc = env.bound_desc j ∧ (env.umem_reg j).isSome = true)
    (h256 : i + n ≤ 256) :
    sigterm_loop env ctx n i err =
      some (if n = 0 then err else env.munmap (i + n - 1),
        (List.range' i n).flatMap (unbind_calls env)) := by
  induction n generalizing i err with
  | zero => simp [sigterm_loop]
  | succ n ih =>
    obtain ⟨hb, hu⟩ := h i (Nat.le_refl i) (by omega)
    have hmod : i % 256 = i := Nat.mod_eq_of_lt (by omega)
    rw [sigterm_loop, hb]
    simp only [Env.bound_desc]
    rw [ih (i + 1) (env.munmap i) (fun j a b => h j (by omega) (by omega)) (by omega)]
    by_cases hn : n = 0
    · subst hn
      by_cases hd : env.disconnect i = 0 <;>
        simp [mlx5_devx_regex_database_disconnect, rxp_destroy_mkey, unbind_calls, hmod,
          hu, hd]
    · have he : i + 1 + n - 1 = i + (n + 1) - 1 := by omega
      by_cases hd : env.disconnect i = 0 <;>
        simp [mlx5_devx_regex_database_disconnect, rxp_destroy_mkey, unbind_calls, hmod,
          hu, hd, hn, he, List.range'_succ]

/-! ## Start-up followed by shutdown -/

theorem mlx5_regex_ctx_init_success (env : Env) (ctx0 ctx : mlx5_regex_ctx) (t : List Call)
    (h : mlx5_regex_ctx_init env ctx0 = some (0, ctx, t)) :
    (∀ j, j < env.num_of_engines → env.engine_ok j) ∧
    t = Call.alloc_pd true :: (List.range env.num_of_engines).flatMap (bind_calls env) ∧
    (∀ j, j < env.num_of_engines → (ctx.db_ctx j).mem_desc = env.bound_desc j) ∧
    ctx.num_of_engines = env.num_of_engines := by
  unfold mlx5_regex_ctx_init at h
  simp only [] at h
  by_cases hp : env.alloc_pd = false
  · rw [if_pos hp] at h
    simp [ENOMEM] at h
  · rw [if_neg hp] at h
    obtain ⟨ctx1, hc1⟩ : ∃ c : mlx5_regex_ctx,
        mlx5_regex_ctx.mk env.malloc_db_ctx env.num_of_engines env.alloc_pd = c := ⟨_, rfl⟩
    rw [hc1] at h
    cases hl : ctx_init_loop env env.num_of_engines 0 ctx1 with
    | none => simp [hl] at h
    | some r =>
      obtain ⟨e, c2, cs⟩ := r
      simp only [hl, Option.some.injEq, Prod.mk.injEq] at h
      obtain ⟨he, hc, ht⟩ := h
      subst he hc ht
      have hok := ctx_init_loop_zero env _ 0 ctx1 c2 cs hl
      have hok2 : ∀ j, j < env.num_of_engines → env.engine_ok j :=
        fun j hj => hok j (Nat.zero_le j) (by omega)
      obtain ⟨c3, e3, p1, _, p3⟩ := ctx_init_loop_ok env env.num_of_engines 0 ctx1 hok
      rw [hl] at e3
      simp only [Option.some.injEq, Prod.mk.injEq, true_and] at e3
      obtain ⟨hc3, hcs⟩ := e3
      subst hc3
      refine ⟨hok2, ?_, fun j hj => p1 j (Nat.zero_le j) (by omega), ?_⟩
      · rw [hcs, List.range_eq_range']
      · rw [p3, ← hc1]

theorem handle_signal_after_init (env : Env) (ctx0 ctx : mlx5_regex_ctx) (t : List Call)
    (h : mlx5_regex_ctx_init env ctx0 = some (0, ctx, t)) :
    handle_signal env ctx Signal.SIGTERM =
      some (some (if env.num_of_engines = 0 then 0 else env.munmap (env.num_of_engines - 1)),
        (List.range env.num_of_engines).flatMap (unbind_calls env)) := by
  obtain ⟨hok, _, hb, hn⟩ := mlx5_regex_ctx_init_success env ctx0 ctx t h
  have h256 := env.num_of_engines_u8
  unfold handle_signal
  simp only [hn]
  rw [sigterm_loop_bound env ctx env.num_of_engines 0 0
    (fun j _ hj => ⟨hb j (by omega), (hok j (by omega)).1.2.2.2.1⟩) (by omega)]
  simp [List.range_eq_range']

theorem mem_flatMap_range (f : Nat → List Call) (n i : Nat) (c : Call) (hi : i < n)
    (hc : c ∈ f i) : c ∈ (List.range n).flatMap f :=
  List.mem_flatMap.2 ⟨i, List.mem_range.2 hi, hc⟩

theorem disconnect_order_unbind (env : Env) (n i : Nat) :
    disconnect_order ((List.range' i n).flatMap (unbind_calls env)) = List.range' i n := by
  induction n generalizing i with
  | zero => simp [disconnect_order]
  | succ n ih =>
    rw [List.range'_succ, List.flatMap_cons]
    simp only [unbind_calls, List.cons_append, List.nil_append, disconnect_order]
    exact congrArg (List.cons i) (ih (i + 1))

theorem filter_engine_flatMap (f : Nat → List Call)
    (hf : ∀ j c, c ∈ f j → c.engine = some j) (i s n : Nat) :
    ((List.range' s n).flatMap f).filter (fun c => decide (c.engine = some i)) =
      if s ≤ i ∧ i < s + n then f i else [] := by
  induction n generalizing s with
  | zero =>
    have : ¬ (s ≤ i ∧ i < s + 0) := by omega
    simp [this]
  | succ n ih =>
    rw [List.range'_succ, List.flatMap_cons, List.filter_append, ih (s + 1)]
    by_cases hs : s = i
    · subst hs
      have h1 : (f s).filter (fun c => decide (c.engine = some s)) = f s := by
        rw [List.filter_eq_self]
        intro c hc
        simp [hf s c hc]
      have h2 : ¬ (s + 1 ≤ s ∧ s < s + 1 + n) := by omega
      have h3 : s ≤ s ∧ s < s + (n + 1) := by omega
      rw [h1, if_neg h2, if_pos h3, List.append_nil]
    · have h1 : (f s).filter (fun c => decide (c.engine = some i)) = [] := by
        rw [List.filter_eq_nil_iff]
        intro c hc
        simp [hf s c hc, hs]
      rw [h1, List.nil_append]
      by_cases h2 : s + 1 ≤ i ∧ i < s + 1 + n
      · rw [if_pos h2, if_pos (by omega)]
      · rw [if_neg h2, if_neg (by omega)]

theorem bind_calls_engine (env : Env) (j : Nat) (c : Call) (hc : c ∈ bind_calls env j) :
    c.engine = some j := by
  simp [bind_calls, reg_calls] at hc
  rcases hc with h | h | h | h | h | h <;> subst h <;> rfl

theorem unbind_calls_engine (env : Env) (j : Nat) (c : Call) (hc : c ∈ unbind_calls env j) :
    c.engine = some j := by
  simp [unbind_calls] at hc
  rcases hc with h | h | h | h | h <;> subst h <;> rfl

theorem is_release_false_iff (c : Call) : c.is_release = false ↔ c.releases = none := by
  cases c <;> simp [Call.is_release, Call.releases, Call.kind]

theorem held_no_release (t : List Call) (acc : List Resource)
    (h : ∀ c ∈ t, c.is_release = false) : held t acc = acc ++ t.filterMap Call.acquires := by
  induction t generalizing acc with
  | nil => simp [held]
  | cons c cs ih =>
    have hc : c.releases = none := (is_release_false_iff c).1 (h c (List.mem_cons_self c cs))
    have hcs : ∀ d ∈ cs, d.is_release = false := fun d hd => h d (List.mem_cons_of_mem c hd)
    cases ha : c.acquires with
    | none => simp [held, ha, hc, ih _ hcs, List.filterMap_cons]
    | some r => simp [held, ha, ih _ hcs, List.filterMap_cons]

theorem mkey_id_split (idx u : Nat) (attr : mlx5_devx_mkey_attr) (hidx : idx < 2 ^ 24)
    (hu : attr.umem_id = u % 2 ^ 32) :
    attr.umem_id &&& 0xFF = u % 256 ∧ mkey_id idx attr = idx * 256 + u % 256 := by
  have h1 : attr.umem_id &&& 0xFF = u % 256 := by
    rw [hu, show (0xFF : Nat) = 2 ^ 8 - 1 by norm_num, Nat.and_pow_two_sub_one_eq_mod]
    omega
  refine ⟨h1, ?_⟩
  unfold mkey_id
  rw [h1, Nat.mod_eq_of_lt (by omega : idx < 2 ^ 32), Nat.shiftLeft_eq,
    Nat.mod_eq_of_lt (by omega : idx * 2 ^ 8 < 2 ^ 32), Nat.mul_comm idx (2 ^ 8),
    ← Nat.mul_add_lt_is_or (by omega : u % 256 < 2 ^ 8)]
  omega

theorem is_unbind_false (c : Call) (h : c.is_unbind = false) :
    c.kind ≠ Kind.disconnect ∧ c.is_release = false := by
  cases c <;> simp_all [Call.is_unbind, Call.is_release, Call.kind]

theorem bind_calls_kinds (env : Env) (j : Nat) :
    (bind_calls env j).map Call.kind =
      [Kind.mmap, Kind.calloc, Kind.umem_reg, Kind.init_obj, Kind.obj_create,
       Kind.set_params] := rfl

theorem unbind_calls_kinds (env : Env) (j : Nat) :
    (unbind_calls env j).map Call.kind =
      [Kind.disconnect, Kind.obj_destroy, Kind.umem_dereg, Kind.free, Kind.munmap] := rfl

theorem engine_trace_append (i : Nat) (a b : List Call) :
    engine_trace i (a ++ b) = engine_trace i a ++ engine_trace i b := by
  simp [engine_trace]

theorem engine_trace_binds (env : Env) (i n : Nat) (hi : i < n) :
    engine_trace i ((List.range n).flatMap (bind_calls env)) =
      [Kind.mmap, Kind.calloc, Kind.umem_reg, Kind.init_obj, Kind.obj_create,
       Kind.set_params] := by
  unfold engine_trace
  rw [List.range_eq_range', filter_engine_flatMap _ (bind_calls_engine env) i 0 n,
    if_pos (by omega), bind_calls_kinds]

theorem engine_trace_unbinds (env : Env) (i n : Nat) (hi : i < n) :
    engine_trace i ((List.range n).flatMap (unbind_calls env)) =
      [Kind.disconnect, Kind.obj_destroy, Kind.umem_dereg, Kind.free, Kind.munmap] := by
  unfold engine_trace
  rw [List.range_eq_range', filter_engine_flatMap _ (unbind_calls_engine env) i 0 n,
    if_pos (by omega), unbind_calls_kinds]

theorem size_two_pow_sub_one (k : Nat) : Nat.size (2 ^ k - 1) = k := by
  have hpos : 0 < 2 ^ k := Nat.two_pow_pos k
  apply le_antisymm
  · exact Nat.size_le.2 (by omega)
  · cases k with
    | zero => omega
    | succ k =>
      have h : 2 ^ k ≤ 2 ^ (k + 1) - 1 := by
        rw [Nat.pow_succ]
        have := Nat.two_pow_pos k
        omega
      exact Nat.lt_size.2 h

/-- C1. After a successful start-up, whatever the per-engine disconnect
commands and `munmap` calls return, the SIGTERM pass of `handle_signal` runs
through to `exit` and, for every engine id `i` in `[0, N)`, issues the
disconnect command, destroys the memory key, deregisters the region and unmaps
the buffer. -/
theorem handle_signal_releases_every_engine (env : Env) (ctx0 ctx : mlx5_regex_ctx)
    (t : List Call) (h : mlx5_regex_ctx_init env ctx0 = some (0, ctx, t))
    (i : Nat) (hi : i < env.num_of_engines) :
    ∃ err calls, handle_signal env ctx Signal.SIGTERM = some (some err, calls) ∧
      (∃ key va, Call.disconnect i key va (env.disconnect i) ∈ calls) ∧
      Call.obj_destroy i ∈ calls ∧ Call.umem_dereg i ∈ calls ∧
      (∃ va, Call.munmap i va (env.munmap i) ∈ calls) := by
  refine ⟨_, _, handle_signal_after_init env ctx0 ctx t h, ⟨env.id i, env.mmap i, ?_⟩, ?_, ?_,
    ⟨env.mmap i, ?_⟩⟩ <;>
    exact mem_flatMap_range _ _ i _ hi (by simp [unbind_calls])

/-- C1, instance: with two engines, the disconnect command and `munmap` both
fail on engine 0 and engine 1 is still disconnected and released. -/
theorem handle_signal_releases_every_engine_witness :
    env_two.disconnect 0 ≠ 0 ∧ env_two.munmap 0 ≠ 0 ∧
    ∃ err calls, handle_signal env_two (started env_two ctx_zero) Signal.SIGTERM
        = some (some err, calls) ∧
      (∃ key va, Call.disconnect 1 key va (env_two.disconnect 1) ∈ calls) ∧
      Call.obj_destroy 1 ∈ calls ∧ Call.umem_dereg 1 ∈ calls ∧
      (∃ va, Call.munmap 1 va (env_two.munmap 1) ∈ calls) :=
  ⟨by decide, by decide,
    handle_signal_releases_every_engine env_two ctx_zero (started env_two ctx_zero)
      (start_calls env_two ctx_zero) rfl 1 (by decide)⟩

/-- C2, as stated, fails: with two engines the disconnect command is issued for
engine 0 first and engine 1 second, not in descending order. -/
theorem handle_signal_descending_counterexample :
    (mlx5_regex_ctx_init env_two ctx_zero).map (fun r => r.1) = some 0 ∧
    (handle_signal env_two (started env_two ctx_zero) Signal.SIGTERM).map
        (fun r => disconnect_order r.2) = some [0, 1] ∧
    (handle_signal env_two (started env_two ctx_zero) Signal.SIGTERM).map
        (fun r => disconnect_order r.2) ≠ some (List.range env_two.num_of_engines).reverse := by
  decide

/-- C2, amended. After a successful start-up the SIGTERM pass of `handle_signal`
passes the engine ids to the disconnect command in ascending order
`0, 1, ..., N-1`, each exactly once. -/
theorem handle_signal_disconnects_ascending (env : Env) (ctx0 ctx : mlx5_regex_ctx)
    (t : List Call) (h : mlx5_regex_ctx_init env ctx0 = some (0, ctx, t)) :
    ∃ err calls, handle_signal env ctx Signal.SIGTERM = some (some err, calls) ∧
      disconnect_order calls = List.range env.num_of_engines := by
  refine ⟨_, _, handle_signal_after_init env ctx0 ctx t h, ?_⟩
  rw [List.range_eq_range']
  exact disconnect_order_unbind env _ 0

/-- C2, amended, instance with two engines. -/
theorem handle_signal_disconnects_ascending_witness :
    ∃ err calls, handle_signal env_two (started env_two ctx_zero) Signal.SIGTERM
        = some (some err, calls) ∧
      disconnect_order calls = List.range env_two.num_of_engines :=
  handle_signal_disconnects_ascending env_two ctx_zero (started env_two ctx_zero)
    (start_calls env_two ctx_zero) rfl

/-- C3 at the failing input: one engine, start-up succeeds, the disconnect
command fails with 5 and `munmap` returns 0; `handle_signal` calls `exit(0)`, so
the process status is 0 although a per-engine error occurred. -/
theorem handle_signal_exit_loses_disconnect_error :
    (mlx5_regex_ctx_init env_disconnect_fails ctx_zero).map (fun r => r.1) = some 0 ∧
    env_disconnect_fails.disconnect 0 = 5 ∧
    (handle_signal env_disconnect_fails (started env_disconnect_fails ctx_zero)
        Signal.SIGTERM).map (fun r => r.1.map exit_status) = some (some 0) := by
  decide

/-- C6. In the trace of a successful start-up followed by a SIGTERM shutdown,
the calls made for each engine are, in this order and each exactly once:
buffer mapping, bookkeeping allocation, region registration, protection-domain
lookup, memory-key object creation, bind command; then disconnect command,
memory-key object destruction, region deregistration, bookkeeping free, buffer
unmap.  So the key is destroyed after the disconnect, and the region is
deregistered and unmapped after the key is destroyed. -/
theorem lifecycle_order (env : Env) (ctx0 ctx : mlx5_regex_ctx) (t : List Call)
    (h : mlx5_regex_ctx_init env ctx0 = some (0, ctx, t))
    (i : Nat) (hi : i < env.num_of_engines) :
    ∃ err calls, handle_signal env ctx Signal.SIGTERM = some (some err, calls) ∧
      engine_trace i (t ++ calls) =
        [Kind.mmap, Kind.calloc, Kind.umem_reg, Kind.init_obj, Kind.obj_create,
         Kind.set_params, Kind.disconnect, Kind.obj_destroy, Kind.umem_dereg, Kind.free,
         Kind.munmap] := by
  obtain ⟨_, ht, _, _⟩ := mlx5_regex_ctx_init_success env ctx0 ctx t h
  refine ⟨_, _, handle_signal_after_init env ctx0 ctx t h, ?_⟩
  rw [engine_trace_append, engine_trace_unbinds env i _ hi, ht,
    show Call.alloc_pd true :: (List.range env.num_of_engines).flatMap (bind_calls env)
      = [Call.alloc_pd true] ++ (List.range env.num_of_engines).flatMap (bind_calls env)
      from rfl,
    engine_trace_append, engine_trace_binds env i _ hi]
  rfl

/-- C6, instance: engine 1 of two, with failures on engine 0 during shutdown. -/
theorem lifecycle_order_witness :
    ∃ err calls, handle_signal env_two (started env_two ctx_zero) Signal.SIGTERM
        = some (some err, calls) ∧
      engine_trace 1 (start_calls env_two ctx_zero ++ calls) =
        [Kind.mmap, Kind.calloc, Kind.umem_reg, Kind.init_obj, Kind.obj_create,
         Kind.set_params, Kind.disconnect, Kind.obj_destroy, Kind.umem_dereg, Kind.free,
         Kind.munmap] :=
  lifecycle_order env_two ctx_zero (started env_two ctx_zero) (start_calls env_two ctx_zero)
    rfl 1 (by decide)

/-! ## Failures during start-up -/

/-- C5, as stated, fails: when the region registration of `register_database`
fails, the call returns `-ENOMEM` while the mapped buffer and the key
bookkeeping allocation it acquired are still held. -/
theorem register_database_leak_counterexample :
    (register_database env_umem_fails ctx_zero 0).1 = -12 ∧
    held (register_database env_umem_fails ctx_zero 0).2.2 [] =
      [Resource.buffer 0, Resource.mkey_alloc 0] := by
  decide

/-- C5, amended. Every call of `register_database` that returns an error
returns `-ENOMEM` without having released anything: it makes no unmap, free,
deregistration or destroy call, so every resource acquired by an earlier step
of the call is still held when the error is returned; in particular the mapped
buffer, unless the huge-page allocation itself failed. -/
theorem register_database_error_keeps_resources (env : Env) (ctx : mlx5_regex_ctx) (j : Nat)
    (h : (register_database env ctx j).1 ≠ 0) :
    (register_database env ctx j).1 = -ENOMEM ∧
    (∀ c ∈ (register_database env ctx j).2.2, c.is_release = false) ∧
    held (register_database env ctx j).2.2 [] =
      (register_database env ctx j).2.2.filterMap Call.acquires ∧
    (env.mmap j ≠ MAP_FAILED →
      Resource.buffer j ∈ held (register_database env ctx j).2.2 []) := by
  have hrel : ∀ c ∈ (register_database env ctx j).2.2, c.is_release = false :=
    fun c hc => (is_unbind_false c (register_database_calls env ctx j c hc).2).2
  have hheld := held_no_release _ [] hrel
  rw [List.nil_append] at hheld
  refine ⟨?_, hrel, hheld, ?_⟩
  · rcases register_database_ret env ctx j with ⟨h0, _⟩ | h1
    · exact absurd h0 h
    · exact h1
  · intro hm
    rw [hheld, List.mem_filterMap]
    refine ⟨Call.mmap j (env.mmap j), register_database_mmap_mem env ctx j, ?_⟩
    simp [Call.acquires, hm]

/-- C5, amended, instance: the region registration of engine 0 fails. -/
theorem register_database_error_keeps_resources_witness :
    (register_database env_umem_fails ctx_zero 0).1 = -ENOMEM ∧
    (∀ c ∈ (register_database env_umem_fails ctx_zero 0).2.2, c.is_release = false) ∧
    held (register_database env_umem_fails ctx_zero 0).2.2 [] =
      (register_database env_umem_fails ctx_zero 0).2.2.filterMap Call.acquires ∧
    (env_umem_fails.mmap 0 ≠ MAP_FAILED →
      Resource.buffer 0 ∈ held (register_database env_umem_fails ctx_zero 0).2.2 []) :=
  register_database_error_keeps_resources env_umem_fails ctx_zero 0 (by decide)

/-! ## The key descriptor -/

/-- C7, as stated, fails: for 128 MiB and 2 MiB pages the descriptor gets
67108864 while the number of covering pages times 8 divided by 16 is 32; and
for a size of `2 ^ 32` with 4 KiB pages it gets 0 while the formula gives
524288. -/
theorem translations_octword_size_pages_counterexample :
    (fill_create_mkey_in (mkey_attr_of 0x200000 (128 * 1024 * 1024) 0x310 7)
        (2 * 1024 * 1024)).translations_octword_size = 67108864 ∧
    pages (128 * 1024 * 1024) (2 * 1024 * 1024) * 8 / 16 = 32 ∧
    (fill_create_mkey_in (mkey_attr_of 0x200000 (2 ^ 32) 0x310 7)
        4096).translations_octword_size = 0 ∧
    pages (2 ^ 32) 4096 * 8 / 16 = 524288 := by
  decide

/-- C7, amended. For every `size` and every page size `2 ^ k` with `k ≤ 32`,
the `translations_octword_size` written into the key descriptor is the number
of pages covering the region times the page size, times 8, divided by 16, where
the region size is `size` truncated to 32 bits. -/
theorem translations_octword_size_aligned (ptr size umem_id pdn k : Nat) (hk : k ≤ 32) :
    (fill_create_mkey_in (mkey_attr_of ptr size umem_id pdn) (2 ^ k)).translations_octword_size
      = pages (size % 2 ^ 32) (2 ^ k) * 2 ^ k * 8 / 16 := by
  have hs : (mkey_attr_of ptr size umem_id pdn).size < 2 ^ 32 :=
    Nat.mod_lt _ (by norm_num)
  show translation_size (mkey_attr_of ptr size umem_id pdn) (2 ^ k) = _
  rw [translation_size_pow2 _ k hs hk]
  rfl

/-- C7, amended, instance: 128 MiB with 2 MiB pages. -/
theorem translations_octword_size_aligned_witness :
    (fill_create_mkey_in (mkey_attr_of 0x200000 (2 ^ 27) 0x310 7)
        (2 ^ 21)).translations_octword_size
      = pages (2 ^ 27 % 2 ^ 32) (2 ^ 21) * 2 ^ 21 * 8 / 16 :=
  translations_octword_size_aligned 0x200000 (2 ^ 27) 0x310 7 21 (by decide)

/-- C9. After a successful start-up, for an engine whose create-object command
returned a `mkey_index` below `2 ^ 24` and whose region has id `u`, the stored
memory-key id is a 32-bit value whose low byte is the `mkey_7_0` byte submitted
in the create-object command, `u & 0xFF`, and whose upper 24 bits are the
returned `mkey_index`; the bind command and the disconnect command of the
SIGTERM pass both pass this id as `db_mkey`. -/
theorem mkey_id_layout (env : Env) (ctx0 ctx : mlx5_regex_ctx) (t : List Call)
    (h : mlx5_regex_ctx_init env ctx0 = some (0, ctx, t))
    (i : Nat) (hi : i < env.num_of_engines) (idx u : Nat)
    (hidx : env.obj_create i = some idx) (hu : env.umem_reg i = some u)
    (hlt : idx < 2 ^ 24) :
    ∃ id cmd, (ctx.db_ctx i).mem_desc.mkey = some (mlx5_devx_obj.mk id) ∧
      Call.obj_create i cmd (some idx) ∈ t ∧ cmd.mkey_7_0 = u &&& 0xFF ∧
      id < 2 ^ 32 ∧ id % 2 ^ 8 = cmd.mkey_7_0 ∧ id / 2 ^ 8 = idx ∧
      (∃ va ret, Call.set_params i id va ret ∈ t) ∧
      (∃ err calls va ret, handle_signal env ctx Signal.SIGTERM = some (some err, calls) ∧
        Call.disconnect i id va ret ∈ calls) := by
  obtain ⟨_, ht, hb, _⟩ := mlx5_regex_ctx_init_success env ctx0 ctx t h
  have hattr : (env.attr i).umem_id = u % 2 ^ 32 := by
    simp [Env.attr, mkey_attr_of, hu]
  obtain ⟨h1, h2⟩ := mkey_id_split idx u (env.attr i) hlt hattr
  have hid : env.id i = idx * 256 + u % 256 := by
    rw [Env.id, hidx]
    exact h2
  have hand : u &&& 0xFF = u % 256 := by
    rw [show (0xFF : Nat) = 2 ^ 8 - 1 by norm_num, Nat.and_pow_two_sub_one_eq_mod]
  have hmem : ∀ c, c ∈ bind_calls env i → c ∈ t := by
    intro c hc
    rw [ht]
    exact List.mem_cons_of_mem _ (mem_flatMap_range _ _ i _ hi hc)
  refine ⟨env.id i, env.cmd i, ?_, ?_, ?_, ?_, ?_, ?_, ⟨env.mmap i, env.set_params i, ?_⟩,
    ⟨_, _, env.mmap i, env.disconnect i, handle_signal_after_init env ctx0 ctx t h, ?_⟩⟩
  · rw [hb i hi]
    rfl
  · apply hmem
    rw [← hidx]
    simp [bind_calls, reg_calls]
  · rw [hand]
    exact h1
  · rw [hid]
    omega
  · rw [hid]
    show _ = (env.attr i).umem_id &&& 0xFF
    rw [h1]
    omega
  · rw [hid]
    omega
  · apply hmem
    simp [bind_calls]
  · exact mem_flatMap_range _ _ i _ hi (by simp [unbind_calls])

/-- C9, instance: engine 1 of two, key index `0x101` and region id `0x311`. -/
theorem mkey_id_layout_witness :
    ∃ id cmd, ((started env_two ctx_zero).db_ctx 1).mem_desc.mkey
        = some (mlx5_devx_obj.mk id) ∧
      Call.obj_create 1 cmd (some 0x101) ∈ start_calls env_two ctx_zero ∧
      cmd.mkey_7_0 = 0x311 &&& 0xFF ∧
      id < 2 ^ 32 ∧ id % 2 ^ 8 = cmd.mkey_7_0 ∧ id / 2 ^ 8 = 0x101 ∧
      (∃ va ret, Call.set_params 1 id va ret ∈ start_calls env_two ctx_zero) ∧
      (∃ err calls va ret,
        handle_signal env_two (started env_two ctx_zero) Signal.SIGTERM
          = some (some err, calls) ∧
        Call.disconnect 1 id va ret ∈ calls) :=
  mkey_id_layout env_two ctx_zero (started env_two ctx_zero) (start_calls env_two ctx_zero)
    rfl 1 (by decide) 0x101 0x311 rfl rfl (by decide)

/-- C10. For every 32-bit `v` with `1 ≤ v ≤ 2 ^ 31`, `rte_log2_u32 v` is the
least `r` with `v ≤ 2 ^ r`; `rte_log2_u32 0` is 0; and for a page size `2 ^ k`
with `k ≤ 31` the `log_page_size` written into the key descriptor is `k`. -/
theorem rte_log2_u32_ceil (v k : Nat) (attr : mlx5_devx_mkey_attr)
    (hv1 : 1 ≤ v) (hv : v ≤ 2 ^ 31) (hk : k ≤ 31) :
    (∃ r, rte_log2_u32 v = some r ∧ v ≤ 2 ^ r ∧ ∀ j, v ≤ 2 ^ j → r ≤ j) ∧
    rte_log2_u32 0 = some 0 ∧
    (fill_create_mkey_in attr (2 ^ k)).log_page_size = some k := by
  refine ⟨⟨Nat.size (v - 1), rte_log2_u32_eq_size v hv1 hv, ?_, ?_⟩, by decide, ?_⟩
  · have := Nat.lt_size_self (v - 1)
    omega
  · intro j hj
    exact Nat.size_le.2 (by omega)
  · have hpos : 0 < 2 ^ k := Nat.two_pow_pos k
    have hle : (2:Nat) ^ k ≤ 2 ^ 31 := Nat.pow_le_pow_right (by norm_num) hk
    show rte_log2_u32 (2 ^ k % 2 ^ 32) = some k
    rw [Nat.mod_eq_of_lt (by omega : 2 ^ k < 2 ^ 32),
      rte_log2_u32_eq_size (2 ^ k) (by omega) hle, size_two_pow_sub_one]

/-- C10, instance: `v = 5` has rounded-up logarithm 3, and 2 MiB pages give a
`log_page_size` of 21. -/
theorem rte_log2_u32_ceil_witness :
    (∃ r, rte_log2_u32 5 = some r ∧ 5 ≤ 2 ^ r ∧ ∀ j, 5 ≤ 2 ^ j → r ≤ j) ∧
    rte_log2_u32 0 = some 0 ∧
    (fill_create_mkey_in (mkey_attr_of 0x200000 (2 ^ 27) 0x310 7) (2 ^ 21)).log_page_size
      = some 21 :=
  rte_log2_u32_ceil 5 21 (mkey_attr_of 0x200000 (2 ^ 27) 0x310 7) (by decide) (by decide)
    (by decide)

end Mlx5Regex
